/-
Verification of the pulse_agents runtime (PULSE-IDE, pulse-desktop/agents).

This file gives a shallow embedding of the Python modules
  pulse_agents/agent.py          (Agent dispatch loop and task processing)
  pulse_agents/context_manager.py (dual-tier memory store)
  pulse_agents/tool_adapter.py   (bounded tool execution)
  pulse_agents/kernel_client.py  (JSON-RPC client)
and proves or refutes the behavioural claims about them.

Modelling conventions:
  * Python dicts (which preserve insertion order, update keys in place,
    and append new keys at the end) are modelled as association lists
    with dictGet and dictSet below.
  * datetime values are modelled as Nat ticks; datetime.min is 0.
  * Python float scores such as 0.5 are modelled as rationals.
  * Exceptions escaping a function are modelled with Except; exceptions
    caught inside a function stay inside its pure result.
-/
import Mathlib

namespace Pulse

open List

/-! ## Python-style JSON values -/

/-- JSON-like values exchanged through task payloads, results and RPC
messages (model of the Any-typed Python values the modules pass around). -/
inductive PyValue where
  | vnull : PyValue
  | vbool : Bool → PyValue
  | vint : Int → PyValue
  | vstr : String → PyValue
  | vlist : List PyValue → PyValue
  | vdict : List (String × PyValue) → PyValue

/-- The double-quote character. -/
def qmark : Char := Char.ofNat 34

/-- The backslash character. -/
def bslash : Char := Char.ofNat 92

/-- JSON escaping of one character; faithful for the quote, the backslash
and printable ASCII, which is all the repository data in the claims uses. -/
def escJsonChar (c : Char) : String :=
  if c.toNat = 34 then String.mk [bslash, qmark]
  else if c.toNat = 92 then String.mk [bslash, bslash]
  else String.singleton c

/-- Model of the JSON string quoting done by json.dumps. -/
def quoteJson (s : String) : String :=
  String.mk [qmark] ++ String.join (s.data.map escJsonChar) ++ String.mk [qmark]

mutual

/-- Model of json.dumps with the default separators, used by
ContextManager for serializing values. -/
def jsonDumps : PyValue → String
  | .vnull => "null"
  | .vbool b => if b then "true" else "false"
  | .vint n => toString n
  | .vstr s => quoteJson s
  | .vlist xs => "[" ++ jsonDumpsList xs ++ "]"
  | .vdict fs => "\x7b" ++ jsonDumpsFields fs ++ "\x7d"

/-- Comma-joined serialization of a JSON array body. -/
def jsonDumpsList : List PyValue → String
  | [] => ""
  | [x] => jsonDumps x
  | x :: y :: rest => jsonDumps x ++ ", " ++ jsonDumpsList (y :: rest)

/-- Comma-joined serialization of a JSON object body. -/
def jsonDumpsFields : List (String × PyValue) → String
  | [] => ""
  | [(k, v)] => quoteJson k ++ ": " ++ jsonDumps v
  | (k, v) :: f :: rest => quoteJson k ++ ": " ++ jsonDumps v ++ ", " ++ jsonDumpsFields (f :: rest)

end

/-! ## Substring matching (model of the Python `in` operator on str) -/

/-- Whether the first list is an initial segment of the second. -/
def leadsWith : List Char → List Char → Bool
  | [], _ => true
  | _ :: _, [] => false
  | a :: as, b :: bs => a == b && leadsWith as bs

/-- Whether the first list occurs contiguously inside the second. -/
def occursIn (needle : List Char) : List Char → Bool
  | [] => needle.isEmpty
  | b :: bs => leadsWith needle (b :: bs) || occursIn needle bs

/-- Model of the Python expression needle in hay on strings. -/
def strIn (needle hay : String) : Bool :=
  occursIn needle.data hay.data

/-- ASCII lowercase conversion of one character. -/
def lowerChar (c : Char) : Char :=
  if 65 ≤ c.toNat ∧ c.toNat ≤ 90 then Char.ofNat (c.toNat + 32) else c

/-- Model of the Python str.lower method, restricted to ASCII, which
covers every string the repository compares case-insensitively. -/
def strLower (s : String) : String := String.mk (s.data.map lowerChar)

/-! ## Insertion-ordered dictionaries -/

/-- Model of d.get(k) on a Python dict represented as an
insertion-ordered association list. -/
def dictGet {α : Type} (k : String) : List (String × α) → Option α
  | [] => none
  | (k0, v0) :: rest => if k0 = k then some v0 else dictGet k rest

/-- Model of d[k] = v on a Python dict: an existing key is updated in
place keeping its position, a new key is appended at the end. -/
def dictSet {α : Type} (k : String) (v : α) : List (String × α) → List (String × α)
  | [] => [(k, v)]
  | (k0, v0) :: rest => if k0 = k then (k, v) :: rest else (k0, v0) :: dictSet k v rest

theorem dictGet_dictSet_same {α : Type} (k : String) (v : α) (st : List (String × α)) :
    dictGet k (dictSet k v st) = some v := by
  induction st with
  | nil => simp [dictGet, dictSet]
  | cons p rest ih =>
    obtain ⟨k0, v0⟩ := p
    by_cases h : k0 = k <;> simp [dictGet, dictSet, h, ih]

theorem dictGet_dictSet_other {α : Type} (k k2 : String) (v : α) (st : List (String × α))
    (h : k2 ≠ k) : dictGet k2 (dictSet k v st) = dictGet k2 st := by
  have hks : ¬(k = k2) := fun he => h he.symm
  induction st with
  | nil => simp [dictGet, dictSet, hks]
  | cons p rest ih =>
    obtain ⟨k0, v0⟩ := p
    by_cases h0 : k0 = k
    · subst h0
      simp [dictGet, dictSet, hks]
    · by_cases h2 : k0 = k2 <;> simp [dictGet, dictSet, h0, h2, ih, h]

theorem mem_keys_dictSet {α : Type} (a k : String) (v : α) (st : List (String × α)) :
    a ∈ (dictSet k v st).map Prod.fst ↔ a = k ∨ a ∈ st.map Prod.fst := by
  induction st with
  | nil => simp [dictSet]
  | cons p rest ih =>
    obtain ⟨k0, v0⟩ := p
    by_cases h : k0 = k
    · subst h
      simp [dictSet]
    · simp [dictSet, h, ih]
      tauto

theorem nodup_keys_dictSet {α : Type} (k : String) (v : α) (st : List (String × α))
    (h : (st.map Prod.fst).Nodup) : ((dictSet k v st).map Prod.fst).Nodup := by
  induction st with
  | nil => simp [dictSet]
  | cons p rest ih =>
    obtain ⟨k0, v0⟩ := p
    simp only [List.map_cons, List.nodup_cons] at h
    by_cases h0 : k0 = k
    · subst h0
      have hrw : dictSet k0 v ((k0, v0) :: rest) = (k0, v) :: rest := by simp [dictSet]
      rw [hrw, List.map_cons, List.nodup_cons]
      exact h
    · have hrw : dictSet k v ((k0, v0) :: rest) = (k0, v0) :: dictSet k v rest := by
        simp [dictSet, h0]
      rw [hrw, List.map_cons, List.nodup_cons]
      refine ⟨fun hmem => ?_, ih h.2⟩
      rcases (mem_keys_dictSet k0 k v rest).mp hmem with h1 | h1
      · exact h0 h1
      · exact h.1 h1

theorem keys_dictSet_of_mem {α : Type} (k : String) (v : α) (st : List (String × α))
    (h : k ∈ st.map Prod.fst) : (dictSet k v st).map Prod.fst = st.map Prod.fst := by
  induction st with
  | nil => simp at h
  | cons p rest ih =>
    obtain ⟨k0, v0⟩ := p
    by_cases h0 : k0 = k
    · subst h0
      simp [dictSet]
    · simp only [List.map_cons, List.mem_cons] at h
      rcases h with h | h
      · exact absurd h.symm h0
      · simp [dictSet, h0, ih h]

theorem keys_dictSet_of_not_mem {α : Type} (k : String) (v : α) (st : List (String × α))
    (h : k ∉ st.map Prod.fst) : (dictSet k v st).map Prod.fst = st.map Prod.fst ++ [k] := by
  induction st with
  | nil => simp [dictSet]
  | cons p rest ih =>
    obtain ⟨k0, v0⟩ := p
    simp only [List.map_cons, List.mem_cons] at h
    push_neg at h
    have h0 : k0 ≠ k := fun h2 => h.1 h2.symm
    simp [dictSet, h0, ih h.2]

theorem length_dictSet_le {α : Type} (k : String) (v : α) (st : List (String × α)) :
    (dictSet k v st).length ≤ st.length + 1 := by
  induction st with
  | nil => simp [dictSet]
  | cons p rest ih =>
    obtain ⟨k0, v0⟩ := p
    by_cases h : k0 = k
    · simp [dictSet, h]
    · simp only [dictSet, if_neg h, List.length_cons]
      omega

/-! ## Stable sorting (model of the Python builtin sorted, which is a
stable ascending sort by the given key) -/

/-- Insert an element into an already sorted list, after every element
that compares less-or-equal, so that stability is preserved. -/
def insertStable {α : Type} (le : α → α → Bool) (x : α) : List α → List α
  | [] => [x]
  | y :: ys => if le y x then y :: insertStable le x ys else x :: y :: ys

/-- Stable ascending sort: elements are inserted left to right, each one
landing after all earlier elements with an equal key.  This has the same
observable behaviour as the Python builtin sorted (Timsort), which is
also a stable ascending sort. -/
def stableSort {α : Type} (le : α → α → Bool) (xs : List α) : List α :=
  xs.foldl (fun acc x => insertStable le x acc) []

theorem insertStable_perm {α : Type} (le : α → α → Bool) (x : α) (l : List α) :
    insertStable le x l ~ x :: l := by
  induction l with
  | nil => exact List.Perm.refl _
  | cons y ys ih =>
    by_cases h : le y x = true
    · simp only [insertStable, if_pos h]
      exact (ih.cons y).trans (List.Perm.swap x y ys)
    · simp only [insertStable, if_neg h]
      exact List.Perm.refl _

theorem stableSort_foldl_perm {α : Type} (le : α → α → Bool) :
    ∀ (xs acc : List α), xs.foldl (fun a x => insertStable le x a) acc ~ acc ++ xs := by
  intro xs
  induction xs with
  | nil => intro acc; simp
  | cons x xs ih =>
    intro acc
    have h1 : (x :: xs).foldl (fun a x => insertStable le x a) acc
        = xs.foldl (fun a x => insertStable le x a) (insertStable le x acc) := rfl
    rw [h1]
    refine (ih (insertStable le x acc)).trans ?_
    refine (List.Perm.append_right xs (insertStable_perm le x acc)).trans ?_
    have h2 : (x :: acc) ++ xs = x :: (acc ++ xs) := rfl
    rw [h2]
    exact List.perm_middle.symm

theorem stableSort_perm {α : Type} (le : α → α → Bool) (xs : List α) :
    stableSort le xs ~ xs := by
  have h := stableSort_foldl_perm le xs []
  simpa [stableSort] using h

/-! ## Memory entries and the ContextManager store
(model of pulse_agents/context_manager.py) -/

/-- MemoryEntry dataclass.  Timestamps are Nat ticks; the float
importance is a rational; the optional numpy embedding is abstracted to
an optional list of rationals (no claim depends on its numeric values). -/
structure MemoryEntry where
  key : String
  value : PyValue
  memory_type : String
  importance : ℚ := 1/2
  access_count : Nat := 0
  created_at : Nat := 0
  last_accessed : Option Nat := none
  embedding : Option (List ℚ) := none
  tags : List String := []

/-- ContextManager state: the constructor parameters and the two
insertion-ordered tiers.  This models the configuration in which the
FAISS library is unavailable, so there is no similarity index; the
session-scoped working context and the storage path are not referenced
by any claim and are omitted. -/
structure ContextManager where
  embedding_dim : Nat := 384
  max_short_term : Nat := 100
  max_long_term : Nat := 10000
  short_term : List (String × MemoryEntry) := []
  long_term : List (String × MemoryEntry) := []

/-- The sort key used by _evict_short_term:
(access_count, last_accessed or datetime.min), with datetime.min as 0. -/
def rankOf (p : String × MemoryEntry) : Nat × Nat :=
  (p.2.access_count, p.2.last_accessed.getD 0)

/-- Lexicographic less-or-equal on the eviction sort key. -/
def pairLE (a b : Nat × Nat) : Bool :=
  decide (a.1 < b.1) || (decide (a.1 = b.1) && decide (a.2 ≤ b.2))

/-- Comparison used to sort short-term entries for eviction. -/
def entryLE (p q : String × MemoryEntry) : Bool :=
  pairLE (rankOf p) (rankOf q)

/-- ContextManager._evict_short_term: sort the entries of the short-term
dict ascending by (access_count, last_accessed or datetime.min) with the
stable builtin sort, then delete the first int(n * 0.1) keys from the
dict.  For every realistic tier size, int(n * 0.1) with the Python float
0.1 equals the integer division n / 10, which is how it is written here. -/
def evict_short_term (cm : ContextManager) : ContextManager :=
  let sorted_entries := stableSort entryLE cm.short_term
  let to_remove := cm.short_term.length / 10
  let removed := (sorted_entries.take to_remove).map Prod.fst
  { cm with short_term := cm.short_term.filter (fun q => decide (q.1 ∉ removed)) }

/-- The fresh entry built by ContextManager.set_working: memory_type
"working", fresh created_at, defaults for every other field. -/
def workingEntry (key : String) (value : PyValue) (now : Nat) : MemoryEntry :=
  { key := key, value := value, memory_type := "working", created_at := now }

/-- ContextManager.set_working: insert or overwrite the entry, then run
eviction when the tier size exceeds max_short_term. -/
def set_working (cm : ContextManager) (key : String) (value : PyValue) (now : Nat) :
    ContextManager :=
  let cm1 := { cm with short_term := dictSet key (workingEntry key value now) cm.short_term }
  if cm1.short_term.length > cm1.max_short_term then evict_short_term cm1 else cm1

/-- The access-tracking update shared by get_working and retrieve. -/
def touchEntry (e : MemoryEntry) (now : Nat) : MemoryEntry :=
  { e with access_count := e.access_count + 1, last_accessed := some now }

/-- ContextManager.get_working: on a hit, bump access_count, stamp
last_accessed and return the value; on a miss return None. -/
def get_working (cm : ContextManager) (key : String) (now : Nat) :
    Option PyValue × ContextManager :=
  match dictGet key cm.short_term with
  | some e => (some e.value, { cm with short_term := dictSet key (touchEntry e now) cm.short_term })
  | none => (none, cm)

/-- ContextManager.store in the configuration without FAISS:
_compute_embedding returns None, the index is None so nothing is added
to it, and no storage path is set so nothing is persisted. -/
def store (cm : ContextManager) (key : String) (value : PyValue)
    (memory_type : String) (importance : ℚ) (now : Nat) : ContextManager :=
  let entry : MemoryEntry :=
    { key := key, value := value, memory_type := memory_type,
      importance := importance, created_at := now }
  { cm with long_term := dictSet key entry cm.long_term }

/-- ContextManager.retrieve: same access tracking as get_working, on the
long-term tier. -/
def retrieve (cm : ContextManager) (key : String) (now : Nat) :
    Option PyValue × ContextManager :=
  match dictGet key cm.long_term with
  | some e => (some e.value, { cm with long_term := dictSet key (touchEntry e now) cm.long_term })
  | none => (none, cm)

/-- One result row produced by search or _keyword_search. -/
structure SearchResult where
  key : String
  value : PyValue
  score : ℚ
  memory_type : String

/-- The match test of ContextManager._keyword_search: a case-insensitive
substring match of the query against json.dumps of the value and against
the key. -/
def keywordMatches (query_lower : String) (e : MemoryEntry) : Bool :=
  strIn query_lower (strLower (jsonDumps e.value)) || strIn query_lower (strLower e.key)

/-- ContextManager._keyword_search: walk the long-term entries in dict
order, keep the matches with the fixed score 0.5, return the first
limit of them. -/
def keyword_search (cm : ContextManager) (query : String) (limit : Nat) : List SearchResult :=
  let query_lower := strLower query
  (((cm.long_term.map Prod.snd).filter (keywordMatches query_lower)).map
    (fun e => { key := e.key, value := e.value, score := 1/2, memory_type := e.memory_type })).take
    limit

/-- ContextManager.search in the configuration where self._index is None
(no FAISS): the source then immediately delegates to _keyword_search.
The FAISS branch drives the external faiss library and is outside this
model. -/
def search_no_index (cm : ContextManager) (query : String) (limit : Nat) : List SearchResult :=
  keyword_search cm query limit

/-! ## Eviction lemmas -/

theorem evict_short_term_perm (cm : ContextManager)
    (h : (cm.short_term.map Prod.fst).Nodup) :
    (evict_short_term cm).short_term ~
      (stableSort entryLE cm.short_term).drop (cm.short_term.length / 10) := by
  have hperm : cm.short_term ~ stableSort entryLE cm.short_term :=
    (stableSort_perm entryLE cm.short_term).symm
  set s := stableSort entryLE cm.short_term with hs
  set k := cm.short_term.length / 10 with hk
  set R := (s.take k).map Prod.fst with hR
  have hsnodup : (s.map Prod.fst).Nodup := ((hperm.map Prod.fst).nodup_iff).mp h
  have hsplit : s.map Prod.fst = (s.take k).map Prod.fst ++ (s.drop k).map Prod.fst := by
    rw [← List.map_append, List.take_append_drop]
  have hdisj : ∀ a, a ∈ (s.drop k).map Prod.fst → a ∉ R := by
    rw [hsplit] at hsnodup
    have hd := (List.nodup_append.mp hsnodup).2.2
    intro a ha haR
    exact hd haR ha
  have hfa : (evict_short_term cm).short_term
      = cm.short_term.filter (fun q => decide (q.1 ∉ R)) := rfl
  rw [hfa]
  refine (hperm.filter _).trans ?_
  have hsk : s = s.take k ++ s.drop k := (List.take_append_drop k s).symm
  have htake : (s.take k).filter (fun q => decide (q.1 ∉ R)) = [] := by
    apply List.filter_eq_nil_iff.mpr
    intro q hq
    simp only [decide_eq_true_eq, not_not]
    exact List.mem_map_of_mem Prod.fst hq
  have hdrop : (s.drop k).filter (fun q => decide (q.1 ∉ R)) = s.drop k := by
    apply List.filter_eq_self.mpr
    intro q hq
    exact decide_eq_true (hdisj q.1 (List.mem_map_of_mem Prod.fst hq))
  calc s.filter (fun q => decide (q.1 ∉ R))
      = (s.take k ++ s.drop k).filter (fun q => decide (q.1 ∉ R)) := by rw [← hsk]
    _ = (s.take k).filter (fun q => decide (q.1 ∉ R))
          ++ (s.drop k).filter (fun q => decide (q.1 ∉ R)) := by rw [List.filter_append]
    _ = s.drop k := by rw [htake, hdrop, List.nil_append]
    _ ~ s.drop k := List.Perm.refl _

theorem evict_short_term_length (cm : ContextManager)
    (h : (cm.short_term.map Prod.fst).Nodup) :
    (evict_short_term cm).short_term.length
      = cm.short_term.length - cm.short_term.length / 10 := by
  have hp := (evict_short_term_perm cm h).length_eq
  have hl : (stableSort entryLE cm.short_term).length = cm.short_term.length :=
    (stableSort_perm entryLE cm.short_term).length_eq
  rw [hp, List.length_drop, hl]

theorem evict_short_term_small (cm : ContextManager)
    (h : cm.short_term.length ≤ 9) : (evict_short_term cm).short_term = cm.short_term := by
  have hk : cm.short_term.length / 10 = 0 := Nat.div_eq_of_lt (by omega)
  show cm.short_term.filter _ = cm.short_term
  rw [hk]
  simp

/-! ## Agent runtime (model of pulse_agents/agent.py) -/

/-- AgentStatus enumeration. -/
inductive AgentStatus where
  | idle | planning | executing | waiting | error
deriving DecidableEq

/-- Task model.  The pydantic defaults are status pending, no result,
no error, no timestamps. -/
structure Task where
  id : String
  name : String
  task_type : String := "generic"
  priority : Int := 5
  status : String := "pending"
  payload : List (String × PyValue) := []
  timeout_ms : Nat := 300000
  retry_count : Nat := 0
  max_retries : Nat := 3
  result : Option (List (String × PyValue)) := none
  error : Option String := none
  started_at : Option Nat := none
  completed_at : Option Nat := none

/-- The mutable Agent fields touched by the dispatch path, plus the
running flag and the task queue used by submit_task and stop. -/
structure AgentState where
  status : AgentStatus := .idle
  current_task : Option Task := none
  task_count : Nat := 0
  success_count : Nat := 0
  failure_count : Nat := 0
  last_error : Option String := none
  running : Bool := false
  queue : List Task := []

/-- One observable outcome of awaiting a handler coroutine under
asyncio.wait_for: the returned value, a raised exception whose str is
msg, or a TimeoutError. -/
inductive HandlerOutcome where
  | success (value : PyValue)
  | raises (msg : String)
  | timesOut

/-- The handler registry: a task_type keyed table of handler behaviour. -/
def Handlers : Type := List (String × (Task → HandlerOutcome))

/-- Model of self._handlers.get(task.task_type). -/
def lookupHandler (hs : Handlers) (task_type : String) : Option (Task → HandlerOutcome) :=
  dictGet task_type hs

/-- The wrapping on line 209 of agent.py: a dict result is stored as is,
any other value is wrapped in a single-field dict. -/
def wrapResult : PyValue → List (String × PyValue)
  | .vdict fs => fs
  | v => [("result", v)]

/-- The task after lines 194 and 195 of _process_task: started_at
stamped and status running. -/
def runningTask (t : Task) (now : Nat) : Task :=
  { t with status := "running", started_at := some now }

/-- The task mutations shared by the three failure paths: error
recorded, status failed. -/
def failTask (t : Task) (msg : String) : Task :=
  { t with error := some msg, status := "failed" }

/-- The finally block of _process_task: status back to idle,
current_task cleared, task_count incremented. -/
def finishAgent (a : AgentState) : AgentState :=
  { a with status := .idle, current_task := none, task_count := a.task_count + 1 }

/-- Agent._process_task: mark the agent executing and the task running,
dispatch by task_type (a missing handler raises ValueError, caught by
the generic except clause), record completion or failure together with
the counter updates, and always run the finally block. -/
def processTask (hs : Handlers) (a : AgentState) (t : Task) (now : Nat) :
    AgentState × Task :=
  let a1 : AgentState := { a with status := .executing, current_task := some (runningTask t now) }
  match lookupHandler hs t.task_type with
  | none =>
    let t2 := failTask (runningTask t now) ("No handler for task type: " ++ t.task_type)
    (finishAgent { a1 with failure_count := a1.failure_count + 1, last_error := t2.error }, t2)
  | some h =>
    match h (runningTask t now) with
    | .success v =>
      let t2 := { runningTask t now with
        result := some (wrapResult v), status := "completed", completed_at := some now }
      (finishAgent { a1 with success_count := a1.success_count + 1 }, t2)
    | .timesOut =>
      let t2 := failTask (runningTask t now)
        ("Task timed out after " ++ toString t.timeout_ms ++ "ms")
      (finishAgent { a1 with failure_count := a1.failure_count + 1, last_error := t2.error }, t2)
    | .raises msg =>
      let t2 := failTask (runningTask t now) msg
      (finishAgent { a1 with failure_count := a1.failure_count + 1, last_error := t2.error }, t2)

/-- Agent._process_loop restricted to one drain of the queue: process
the dequeued tasks in FIFO order, returning the final agent state and
every processed task.  _process_task never lets an exception escape, so
the loop reaches every queued task. -/
def processLoop (hs : Handlers) (now : Nat) (a : AgentState) :
    List Task → AgentState × List Task
  | [] => (a, [])
  | t :: ts =>
    let p := processTask hs a t now
    let q := processLoop hs now p.1 ts
    (q.1, p.2 :: q.2)

/-- Agent.submit_task: an unconditional non-blocking put_nowait on the
unbounded asyncio.Queue.  There is no closed-queue check. -/
def submit_task (a : AgentState) (t : Task) : AgentState :=
  { a with queue := a.queue ++ [t] }

/-- Agent.stop: clears the running flag and nothing else. -/
def stop (a : AgentState) : AgentState :=
  { a with running := false }

/-! ## Tool adapter (model of pulse_agents/tool_adapter.py) -/

/-- ToolResult dataclass.  duration_ms is wall-clock milliseconds. -/
structure ToolResult where
  success : Bool
  exit_code : Int
  stdout : String
  stderr : String
  duration_ms : Nat
  output_files : List String
  metadata : List (String × PyValue)

/-- ToolAdapter state: the default timeout and the registered tools as
a name keyed dict of executables (the type and description fields never
influence execute and are omitted). -/
structure ToolAdapter where
  timeout_seconds : Nat := 300
  tools : List (String × String) := []

/-- Observable outcome of the subprocess started by execute: normal
completion with a return code and captured streams, a TimeoutError
from asyncio.wait_for, or an exception raised while launching. -/
inductive ProcOutcome where
  | completed (returncode : Int) (stdout : Option String) (stderr : Option String)
  | timedOut
  | launchError (msg : String)

/-- Model of the Python expression timeout or self.timeout_seconds:
None and 0 both fall back to the default. -/
def effTimeout (timeout : Option Nat) (default_timeout : Nat) : Nat :=
  match timeout with
  | some n => if n = 0 then default_timeout else n
  | none => default_timeout

/-- Model of stdout.decode() if stdout else "" (an absent or empty
stream becomes the empty string). -/
def optStr (o : Option String) : String := o.getD ""

/-- ToolAdapter.execute: an unregistered name raises ValueError; every
started execution returns a ToolResult, with wall-clock duration
endTime - startTime in every branch.  Timeouts and launch failures are
normal failure results, not exceptions. -/
def execute (ad : ToolAdapter) (tool : String) (timeout : Option Nat)
    (outcome : ProcOutcome) (startTime endTime : Nat) : Except String ToolResult :=
  if (dictGet tool ad.tools).isNone then .error ("Unknown tool: " ++ tool)
  else
    let t := effTimeout timeout ad.timeout_seconds
    let duration_ms := endTime - startTime
    match outcome with
    | .completed rc out err =>
      .ok { success := rc == 0, exit_code := rc, stdout := optStr out, stderr := optStr err,
            duration_ms := duration_ms, output_files := [], metadata := [] }
    | .timedOut =>
      .ok { success := false, exit_code := -1, stdout := "",
            stderr := "Tool execution timed out after " ++ toString t ++ " seconds",
            duration_ms := duration_ms, output_files := [],
            metadata := [("timeout", PyValue.vbool true)] }
    | .launchError msg =>
      .ok { success := false, exit_code := -1, stdout := "", stderr := msg,
            duration_ms := duration_ms, output_files := [],
            metadata := [("error", PyValue.vstr msg)] }

/-! ## Kernel RPC client (model of pulse_agents/kernel_client.py) -/

/-- KernelClient mutable state: whether connect has established the
HTTP session, and the correlation id counter. -/
structure KernelClient where
  connected : Bool := false
  request_id : Nat := 0

/-- The JSON-RPC request envelope built by call. -/
structure RpcRequest where
  jsonrpc : String := "2.0"
  id : Nat
  method : String
  params : List (String × PyValue)

/-- The message extraction of line 87: result["error"].get("message",
"RPC error").  A non-dict error field would make the Python code raise
AttributeError from the .get call; that corner is represented as an
error outcome and is not exercised by any claim. -/
def callOutcome (response : List (String × PyValue)) : Except String (Option PyValue) :=
  match dictGet "error" response with
  | some (.vdict fs) =>
    .error (match dictGet "message" fs with
            | some (.vstr m) => m
            | some v => jsonDumps v
            | none => "RPC error")
  | some _ => .error "AttributeError"
  | none => .ok (dictGet "result" response)

/-- KernelClient.call: raises RuntimeError before connect (the session
is None), otherwise increments the correlation id, sends the request
envelope and interprets the response.  The response is passed in as the
observable reply of the kernel. -/
def call (c : KernelClient) (method : String) (params : List (String × PyValue))
    (response : List (String × PyValue)) :
    KernelClient × Option RpcRequest × Except String (Option PyValue) :=
  if c.connected = false then (c, none, .error "Not connected to kernel")
  else
    let rid := c.request_id + 1
    ({ c with request_id := rid },
     some { id := rid, method := method, params := params },
     callOutcome response)

/-! ## Embedding dimension (model of ContextManager._compute_embedding) -/

/-- Byte length of a hashlib.sha256 digest. -/
def sha256DigestLen : Nat := 32

/-- Number of float32 components of the array built on line 88 of
context_manager.py: np.frombuffer(hash_bytes[:embedding_dim * 4],
dtype=np.float32).  The slice of the 32-byte digest keeps
min 32 (4 * embedding_dim) bytes and each float32 occupies 4 bytes. -/
def computeEmbeddingLen (embedding_dim : Nat) : Nat :=
  (min sha256DigestLen (embedding_dim * 4)) / 4

/-! ## Concrete fixtures used by witnesses and counterexamples -/

/-- A running agent with fresh counters and an empty queue. -/
def agent0 : AgentState := { running := true }

/-- A fresh pending task of the default generic type. -/
def task0 : Task := { id := "t0", name := "demo" }

/-- A handler table with one ping handler that succeeds. -/
def handlers0 : Handlers :=
  [("generic", fun _ => .success (.vdict [("pong", .vbool true)]))]

/-- Key names k0, k1, ... used by the memory scenarios. -/
def mkKey (i : Nat) : String := "k" ++ toString i

/-- Insert the keys k_i for i in the list, sequentially, with value i
and clock tick i, with no access in between. -/
def insertSeq (cm : ContextManager) : List Nat → ContextManager
  | [] => cm
  | i :: is => insertSeq (set_working cm (mkKey i) (.vint i) i) is

/-- A ContextManager with the constructor defaults (max_short_term
100). -/
def cm100 : ContextManager := {}

/-- A ContextManager configured with max_short_term 1. -/
def cmMax1 : ContextManager := { max_short_term := 1 }

/-- A store holding only the long-term entry key a, value the string
hello world. -/
def cmHello : ContextManager := store {} "a" (.vstr "hello world") "fact" (1/2) 0

/-- A small short-term tier with two distinct entries. -/
def cmPair : ContextManager :=
  set_working (set_working {} "x" (.vint 1) 0) "y" (.vint 2) 1

/-- The single row returned by the hello query on cmHello. -/
def helloRow : SearchResult :=
  { key := "a", value := .vstr "hello world", score := 1/2, memory_type := "fact" }

/-! ## Claim theorems -/

/-- Claim C1: every dispatch of Agent._process_task, whether it ends in
success, a handler exception, a missing handler or a timeout, leaves the
task with terminal status completed or failed, with exactly one of
result and error set, increments task_count by one, increments exactly
one of success_count and failure_count, records last_error on failure,
clears current_task and resets the agent status to idle. -/
theorem C1_process_task_finalization (hs : Handlers) (a : AgentState) (t : Task) (now : Nat)
    (hres : t.result = none) (herr : t.error = none) :
    ((processTask hs a t now).2.status = "completed"
      ∨ (processTask hs a t now).2.status = "failed") ∧
    (((processTask hs a t now).2.result ≠ none ∧ (processTask hs a t now).2.error = none) ∨
      ((processTask hs a t now).2.result = none ∧ (processTask hs a t now).2.error ≠ none)) ∧
    ((processTask hs a t now).2.status = "completed" ↔ (processTask hs a t now).2.result ≠ none) ∧
    (processTask hs a t now).1.task_count = a.task_count + 1 ∧
    (((processTask hs a t now).1.success_count = a.success_count + 1 ∧
      (processTask hs a t now).1.failure_count = a.failure_count ∧
      (processTask hs a t now).2.status = "completed") ∨
     ((processTask hs a t now).1.failure_count = a.failure_count + 1 ∧
      (processTask hs a t now).1.success_count = a.success_count ∧
      (processTask hs a t now).2.status = "failed" ∧
      (processTask hs a t now).1.last_error = (processTask hs a t now).2.error)) ∧
    (processTask hs a t now).1.current_task = none ∧
    (processTask hs a t now).1.status = .idle := by
  rcases hL : lookupHandler hs t.task_type with _ | h
  · simp [processTask, hL, finishAgent, failTask, runningTask, hres, herr]
  · rcases hO : h (runningTask t now) with v | msg | _ <;>
      (simp only [processTask, hL]; rw [hO];
       simp [finishAgent, failTask, runningTask, wrapResult, hres, herr])

/-- Witness for C1 at a concrete agent, task and handler table. -/
theorem C1_witness :
    task0.result = none ∧
    (processTask handlers0 agent0 task0 5).1.task_count = agent0.task_count + 1 :=
  ⟨rfl, (C1_process_task_finalization handlers0 agent0 task0 5 rfl rfl).2.2.2.1⟩

/-- Claim C2 counterexample: submitting to a stopped agent still
enqueues the task; there is no QueueClosed failure anywhere in
submit_task or stop. -/
theorem C2_counterexample :
    (submit_task (stop agent0) task0).queue = [task0] ∧ (stop agent0).running = false :=
  ⟨rfl, rfl⟩

/-- Claim C2 (amended): submit_task appends the task to the unbounded
FIFO queue without blocking in every agent state; stop merely clears the
running flag and does not close the queue, so a task submitted after
stop is still enqueued and no QueueClosed error exists. -/
theorem C2_submit_always_enqueues (a : AgentState) (t : Task) :
    (submit_task a t).queue = a.queue ++ [t] ∧
    (submit_task a t).running = a.running ∧
    (submit_task (stop a) t).queue = a.queue ++ [t] ∧
    (stop a).running = false ∧
    (stop a).queue = a.queue :=
  ⟨rfl, rfl, rfl, rfl, rfl⟩

/-- Claim C4: a task whose task_type has no registered handler is marked
failed with the no-handler error text, task_count and failure_count are
still incremented, and the dispatch loop proceeds to the remaining
queued tasks, never dropping any. -/
theorem C4_no_handler_failure (hs : Handlers) (a : AgentState) (t : Task) (now : Nat)
    (hL : lookupHandler hs t.task_type = none) :
    (processTask hs a t now).2.status = "failed" ∧
    (processTask hs a t now).2.error = some ("No handler for task type: " ++ t.task_type) ∧
    (processTask hs a t now).1.task_count = a.task_count + 1 ∧
    (processTask hs a t now).1.failure_count = a.failure_count + 1 ∧
    (∀ ts, processLoop hs now a (t :: ts)
        = ((processLoop hs now (processTask hs a t now).1 ts).1,
           (processTask hs a t now).2 :: (processLoop hs now (processTask hs a t now).1 ts).2)) ∧
    (∀ (b : AgentState) (ts : List Task), (processLoop hs now b ts).2.length = ts.length) := by
  refine ⟨?_, ?_, ?_, ?_, fun ts => rfl, ?_⟩
  · simp [processTask, hL, finishAgent, failTask, runningTask]
  · simp [processTask, hL, finishAgent, failTask, runningTask]
  · simp [processTask, hL, finishAgent, failTask, runningTask]
  · simp [processTask, hL, finishAgent, failTask, runningTask]
  · intro b ts
    induction ts generalizing b with
    | nil => rfl
    | cons t2 ts ih => simp [processLoop, ih]

/-- Witness for C4 with an empty handler table. -/
theorem C4_witness :
    (processTask ([] : Handlers) agent0 task0 3).2.error
      = some ("No handler for task type: " ++ task0.task_type) :=
  (C4_no_handler_failure [] agent0 task0 3 rfl).2.1

theorem dictGet_some_mem_keys {α : Type} (k : String) (st : List (String × α)) (e : α)
    (h : dictGet k st = some e) : k ∈ st.map Prod.fst := by
  induction st with
  | nil => simp [dictGet] at h
  | cons p rest ih =>
    obtain ⟨k0, v0⟩ := p
    by_cases h0 : k0 = k
    · subst h0
      simp
    · simp only [dictGet, if_neg h0] at h
      simp [ih h]

/-- Claim C5: with no similarity index, search never fails and returns
at most limit entries whose serialized value or key contains the query
case-insensitively, each scored exactly 0.5; on a store holding only the
entry a maps-to hello world it finds that entry for hello and nothing
for xyz. -/
theorem C5_keyword_fallback (cm : ContextManager) (query : String) (limit : Nat) :
    search_no_index cm query limit = keyword_search cm query limit ∧
    (search_no_index cm query limit).length ≤ limit ∧
    (∀ r ∈ search_no_index cm query limit, r.score = 1/2 ∧
      (strIn (strLower query) (strLower (jsonDumps r.value)) = true ∨
       strIn (strLower query) (strLower r.key) = true)) ∧
    search_no_index cmHello "hello" 10 = [helloRow] ∧
    search_no_index cmHello "xyz" 10 = [] := by
  refine ⟨rfl, List.length_take_le _ _, ?_, rfl, rfl⟩
  intro r hr
  have hr2 := List.take_subset _ _ hr
  obtain ⟨e, he, rfl⟩ := List.mem_map.mp hr2
  have he2 := List.mem_filter.mp he
  have hm : keywordMatches (strLower query) e = true := he2.2
  unfold keywordMatches at hm
  refine ⟨rfl, ?_⟩
  by_cases h1 : strIn (strLower query) (strLower (jsonDumps e.value)) = true
  · exact Or.inl h1
  · rw [Bool.not_eq_true] at h1
    rw [h1] at hm
    simp at hm
    exact Or.inr hm

/-- Witness for C5 at the concrete hello-world store. -/
theorem C5_witness : helloRow.score = 1/2 := by
  have h := C5_keyword_fallback cmHello "hello" 10
  have hm : helloRow ∈ search_no_index cmHello "hello" 10 := by
    rw [h.2.2.2.1]
    exact List.mem_singleton.mpr rfl
  exact (h.2.2.1 _ hm).1

/-- Claim C6 evaluated at the failing input: with the default
embedding_dim of 384, the pseudo-embedding built from the 32-byte
sha256 digest has exactly 8 float32 components, not 384, so the code
cannot produce a vector of the configured dimension (and the 384-dim
FAISS index built in the constructor could never accept it). -/
theorem C6_embedding_dim_bug :
    computeEmbeddingLen 384 = 8 ∧ computeEmbeddingLen 384 ≠ 384 :=
  ⟨rfl, by decide⟩

/-- Claim C7: ToolAdapter.execute raises the unknown-tool error exactly
for unregistered names; for a registered tool a timeout yields a normal
failure result with exit_code -1, a timeout message and the timeout
metadata flag; a launch failure yields exit_code -1 with stderr equal to
the error text and the error metadata flag; and duration_ms is the
wall-clock difference in every returned outcome. -/
theorem C7_execute_contract (ad : ToolAdapter) (tool : String) (timeout : Option Nat)
    (outcome : ProcOutcome) (startTime endTime : Nat) :
    (dictGet tool ad.tools = none →
      execute ad tool timeout outcome startTime endTime = .error ("Unknown tool: " ++ tool)) ∧
    ((dictGet tool ad.tools).isSome = true → outcome = .timedOut →
      execute ad tool timeout outcome startTime endTime
        = .ok { success := false, exit_code := -1, stdout := "",
                stderr := "Tool execution timed out after "
                  ++ toString (effTimeout timeout ad.timeout_seconds) ++ " seconds",
                duration_ms := endTime - startTime, output_files := [],
                metadata := [("timeout", PyValue.vbool true)] }) ∧
    ((dictGet tool ad.tools).isSome = true → ∀ msg, outcome = .launchError msg →
      execute ad tool timeout outcome startTime endTime
        = .ok { success := false, exit_code := -1, stdout := "", stderr := msg,
                duration_ms := endTime - startTime, output_files := [],
                metadata := [("error", PyValue.vstr msg)] }) ∧
    ((dictGet tool ad.tools).isSome = true → ∀ r,
      execute ad tool timeout outcome startTime endTime = .ok r →
      r.duration_ms = endTime - startTime) := by
  refine ⟨?_, ?_, ?_, ?_⟩
  · intro h
    simp [execute, h]
  · rcases hD : dictGet tool ad.tools with _ | info
    · intro hS
      simp at hS
    · intro _ hO
      subst hO
      simp [execute, hD]
  · rcases hD : dictGet tool ad.tools with _ | info
    · intro hS
      simp at hS
    · intro _ msg hO
      subst hO
      simp [execute, hD]
  · rcases hD : dictGet tool ad.tools with _ | info
    · intro hS
      simp at hS
    · intro _ r hr
      rcases outcome with ⟨rc, out, err⟩ | _ | msg
      · simp [execute, hD] at hr
        subst hr
        rfl
      · simp [execute, hD] at hr
        subst hr
        rfl
      · simp [execute, hD] at hr
        subst hr
        rfl

/-- A tool adapter with one registered tool, for the C7 witness. -/
def adapter0 : ToolAdapter := { tools := [("git", "git")] }

/-- Witness for C7: a registered tool timing out at concrete times. -/
theorem C7_witness :
    execute adapter0 "git" none .timedOut 100 4100
      = .ok { success := false, exit_code := -1, stdout := "",
              stderr := "Tool execution timed out after "
                ++ toString (effTimeout none adapter0.timeout_seconds) ++ " seconds",
              duration_ms := 4000, output_files := [],
              metadata := [("timeout", PyValue.vbool true)] } :=
  (C7_execute_contract adapter0 "git" none .timedOut 100 4100).2.1 rfl rfl

theorem callOutcome_error (response : List (String × PyValue)) (errv : PyValue)
    (hE : dictGet "error" response = some errv) :
    (∃ msg, callOutcome response = Except.error msg) ∧
    (∀ fs m, errv = PyValue.vdict fs → dictGet "message" fs = some (.vstr m) →
      callOutcome response = Except.error m) ∧
    (∀ fs, errv = PyValue.vdict fs → dictGet "message" fs = none →
      callOutcome response = Except.error "RPC error") := by
  rcases errv with _ | b | n | s | xs | fs
  case vdict =>
    have hco : callOutcome response
        = .error (match dictGet "message" fs with
                  | some (.vstr m) => m
                  | some v => jsonDumps v
                  | none => "RPC error") := by
      unfold callOutcome
      rw [hE]
    refine ⟨⟨_, hco⟩, ?_, ?_⟩
    · intro fs2 m hfs hm
      injection hfs with hfs2
      subst hfs2
      rw [hco, hm]
    · intro fs2 hfs hm
      injection hfs with hfs2
      subst hfs2
      rw [hco, hm]
  all_goals
    have hco : callOutcome response = .error "AttributeError" := by
      unfold callOutcome
      rw [hE]
  all_goals
    exact ⟨⟨_, hco⟩, fun fs2 m hfs _ => PyValue.noConfusion hfs,
           fun fs2 hfs _ => PyValue.noConfusion hfs⟩

/-- Claim C8: KernelClient.call fails with the not-connected error
before connect, assigns strictly increasing correlation ids across
successive calls on the same client, and, whenever the response carries
an error field, raises an error rather than returning a result,
carrying the remote message whenever the error payload holds one and
the fixed RPC-error text when it holds none. -/
theorem C8_call_contract (c : KernelClient) (m1 m2 : String)
    (p1 p2 r1 r2 : List (String × PyValue)) :
    (c.connected = false → call c m1 p1 r1 = (c, none, .error "Not connected to kernel")) ∧
    (c.connected = true →
      (call c m1 p1 r1).2.1 = some { id := c.request_id + 1, method := m1, params := p1 } ∧
      (call c m1 p1 r1).1 = { connected := true, request_id := c.request_id + 1 } ∧
      (call (call c m1 p1 r1).1 m2 p2 r2).2.1
        = some { id := c.request_id + 2, method := m2, params := p2 } ∧
      c.request_id + 1 < c.request_id + 2) ∧
    (c.connected = true → ∀ errv, dictGet "error" r1 = some errv →
      (∃ msg, (call c m1 p1 r1).2.2 = Except.error msg) ∧
      (∀ fs m, errv = PyValue.vdict fs → dictGet "message" fs = some (.vstr m) →
        (call c m1 p1 r1).2.2 = Except.error m) ∧
      (∀ fs, errv = PyValue.vdict fs → dictGet "message" fs = none →
        (call c m1 p1 r1).2.2 = Except.error "RPC error")) := by
  obtain ⟨cc, cr⟩ := c
  refine ⟨?_, ?_, ?_⟩
  · intro h
    subst h
    simp [call]
  · intro h
    subst h
    refine ⟨rfl, rfl, rfl, by omega⟩
  · intro h errv hE
    subst h
    have hc : (call { connected := true, request_id := cr } m1 p1 r1).2.2
        = callOutcome r1 := rfl
    rw [hc]
    exact callOutcome_error r1 errv hE

/-- Witness for C8: a connected client observing an error reply whose
payload carries the message boom. -/
theorem C8_witness :
    (call { connected := true, request_id := 7 } "kernel.status" []
        [("error", .vdict [("message", .vstr "boom")])]).2.2 = .error "boom" :=
  ((C8_call_contract { connected := true, request_id := 7 } "kernel.status" "x" [] []
      [("error", .vdict [("message", .vstr "boom")])] []).2.2 rfl
    (.vdict [("message", .vstr "boom")]) rfl).2.1 [("message", .vstr "boom")] "boom" rfl rfl

/-- Claim C9: get_working and retrieve return the stored value for a
present key and, as their only state change, bump that entry access
count by one and stamp last_accessed, leaving every other entry, the
key order, the other tier and every configuration field unchanged; for
an absent key they return none and leave the store untouched. -/
theorem C9_access_tracking (cm : ContextManager) (key : String) (now : Nat) :
    (∀ e, dictGet key cm.short_term = some e →
      (get_working cm key now).1 = some e.value ∧
      dictGet key (get_working cm key now).2.short_term = some (touchEntry e now) ∧
      touchEntry e now
        = { e with access_count := e.access_count + 1, last_accessed := some now } ∧
      (∀ k2, k2 ≠ key →
        dictGet k2 (get_working cm key now).2.short_term = dictGet k2 cm.short_term) ∧
      (get_working cm key now).2.short_term.map Prod.fst = cm.short_term.map Prod.fst ∧
      (get_working cm key now).2.long_term = cm.long_term ∧
      (get_working cm key now).2.embedding_dim = cm.embedding_dim ∧
      (get_working cm key now).2.max_short_term = cm.max_short_term ∧
      (get_working cm key now).2.max_long_term = cm.max_long_term) ∧
    (dictGet key cm.short_term = none → get_working cm key now = (none, cm)) ∧
    (∀ e, dictGet key cm.long_term = some e →
      (retrieve cm key now).1 = some e.value ∧
      dictGet key (retrieve cm key now).2.long_term = some (touchEntry e now) ∧
      (∀ k2, k2 ≠ key →
        dictGet k2 (retrieve cm key now).2.long_term = dictGet k2 cm.long_term) ∧
      (retrieve cm key now).2.long_term.map Prod.fst = cm.long_term.map Prod.fst ∧
      (retrieve cm key now).2.short_term = cm.short_term) ∧
    (dictGet key cm.long_term = none → retrieve cm key now = (none, cm)) := by
  refine ⟨?_, ?_, ?_, ?_⟩
  · intro e he
    refine ⟨?_, ?_, rfl, ?_, ?_, ?_, ?_, ?_, ?_⟩
    · simp [get_working, he]
    · simp [get_working, he, dictGet_dictSet_same]
    · intro k2 hk
      simp only [get_working, he]
      exact dictGet_dictSet_other key k2 _ _ hk
    · simp only [get_working, he]
      exact keys_dictSet_of_mem key _ _ (dictGet_some_mem_keys key cm.short_term e he)
    · simp [get_working, he]
    · simp [get_working, he]
    · simp [get_working, he]
    · simp [get_working, he]
  · intro he
    simp [get_working, he]
  · intro e he
    refine ⟨?_, ?_, ?_, ?_, ?_⟩
    · simp [retrieve, he]
    · simp [retrieve, he, dictGet_dictSet_same]
    · intro k2 hk
      simp only [retrieve, he]
      exact dictGet_dictSet_other key k2 _ _ hk
    · simp only [retrieve, he]
      exact keys_dictSet_of_mem key _ _ (dictGet_some_mem_keys key cm.long_term e he)
    · simp [retrieve, he]
  · intro he
    simp [retrieve, he]

/-- A store with one short-term and one long-term entry, for the C9
witness. -/
def cmBoth : ContextManager :=
  store (set_working {} "s" (.vint 1) 0) "l" (.vstr "x") "fact" (1/2) 1

/-- Witness for C9: hit on the short tier and miss on the long tier. -/
theorem C9_witness :
    (get_working cmBoth "s" 5).1 = some (.vint 1) ∧
    retrieve cmBoth "zzz" 5 = (none, cmBoth) :=
  ⟨((C9_access_tracking cmBoth "s" 5).1 (workingEntry "s" (.vint 1) 0) rfl).1,
   (C9_access_tracking cmBoth "zzz" 5).2.2.2 rfl⟩

theorem set_working_short_term (cm : ContextManager) (key : String) (value : PyValue)
    (now : Nat) :
    (set_working cm key value now).short_term
      = if (dictSet key (workingEntry key value now) cm.short_term).length > cm.max_short_term
        then (evict_short_term
          { cm with short_term := dictSet key (workingEntry key value now) cm.short_term }).short_term
        else dictSet key (workingEntry key value now) cm.short_term := by
  unfold set_working
  by_cases hgt :
      (dictSet key (workingEntry key value now) cm.short_term).length > cm.max_short_term
  · simp [hgt]
  · simp [hgt]

set_option maxRecDepth 100000 in
/-- Claim C3: when an insert pushes the short-term tier past
max_short_term, the bottom tenth (rounded down) of the entries ranked
ascending by (access_count, last_accessed or epoch minimum) is evicted
and the rest survive; inserting the 101 distinct keys k0..k100
sequentially into an empty store with max_short_term 100 leaves exactly
the 91 entries k10..k100, the ten oldest zero-access entries k0..k9
having been evicted. -/
theorem C3_eviction_policy :
    (∀ cm : ContextManager, (cm.short_term.map Prod.fst).Nodup →
      (evict_short_term cm).short_term ~
        (stableSort entryLE cm.short_term).drop (cm.short_term.length / 10)) ∧
    (∀ (cm : ContextManager) (key : String) (value : PyValue) (now : Nat),
      (dictSet key (workingEntry key value now) cm.short_term).length > cm.max_short_term →
      set_working cm key value now
        = evict_short_term
            { cm with short_term := dictSet key (workingEntry key value now) cm.short_term }) ∧
    (insertSeq cm100 (List.range 101)).short_term.map Prod.fst
      = (List.range 91).map (fun i => mkKey (i + 10)) ∧
    (insertSeq cm100 (List.range 101)).short_term.length = 91 := by
  refine ⟨fun cm h => evict_short_term_perm cm h, ?_, ?_, ?_⟩
  · intro cm key value now hgt
    simp [set_working, hgt]
  · decide
  · decide

/-- Witness for C3: the eviction permutation at a concrete two-entry
tier with distinct keys. -/
theorem C3_witness :
    (evict_short_term cmPair).short_term ~
      (stableSort entryLE cmPair.short_term).drop (cmPair.short_term.length / 10) :=
  C3_eviction_policy.1 cmPair (by decide)

/-- Claim C10 counterexample: with max_short_term 1, twenty sequential
distinct inserts leave nine entries and the oldest key k0 has been
evicted, so the working tier does not grow without limit. -/
theorem C10_counterexample :
    (insertSeq cmMax1 (List.range 20)).short_term.length = 9 ∧
    dictGet (mkKey 0) (insertSeq cmMax1 (List.range 20)).short_term = none := by
  exact ⟨by decide, rfl⟩

/-- Claim C10 (amended): eviction removes exactly floor(n/10) of the n
entries present when _evict_short_term runs; with max_short_term at most
8, an insert that pushes the tier above the bound evicts nothing, so
set_working does not enforce the max_short_term size bound; but the tier
does not grow without limit: from any size at most 9 it stays at most 9,
because an insert reaching size 10 evicts one entry. -/
theorem C10_eviction_count_and_cap :
    (∀ cm : ContextManager, (cm.short_term.map Prod.fst).Nodup →
      (evict_short_term cm).short_term.length
        = cm.short_term.length - cm.short_term.length / 10) ∧
    (∀ (cm : ContextManager) (key : String) (value : PyValue) (now : Nat),
      cm.max_short_term ≤ 8 → cm.short_term.length ≤ cm.max_short_term →
      (set_working cm key value now).short_term
        = dictSet key (workingEntry key value now) cm.short_term) ∧
    (∀ (cm : ContextManager) (key : String) (value : PyValue) (now : Nat),
      (cm.short_term.map Prod.fst).Nodup →
      cm.max_short_term ≤ 8 → cm.short_term.length ≤ 9 →
      (set_working cm key value now).short_term.length ≤ 9) := by
  refine ⟨fun cm h => evict_short_term_length cm h, ?_, ?_⟩
  · intro cm key value now hmax hlen
    have hd := length_dictSet_le key (workingEntry key value now) cm.short_term
    rw [set_working_short_term]
    by_cases hgt :
        (dictSet key (workingEntry key value now) cm.short_term).length > cm.max_short_term
    · rw [if_pos hgt]
      exact evict_short_term_small _
        (by show (dictSet key (workingEntry key value now) cm.short_term).length ≤ 9; omega)
    · rw [if_neg hgt]
  · intro cm key value now hnd hmax hlen
    have hd := length_dictSet_le key (workingEntry key value now) cm.short_term
    rw [set_working_short_term]
    by_cases hgt :
        (dictSet key (workingEntry key value now) cm.short_term).length > cm.max_short_term
    · rw [if_pos hgt]
      have hnd2 := nodup_keys_dictSet key (workingEntry key value now) cm.short_term hnd
      have hlen2 := evict_short_term_length
        { cm with short_term := dictSet key (workingEntry key value now) cm.short_term } hnd2
      simp only at hlen2
      rw [hlen2]
      rcases Nat.lt_or_ge (dictSet key (workingEntry key value now) cm.short_term).length 10
        with h10 | h10
      · exact le_trans (Nat.sub_le _ _) (by omega)
      · have h10e : (dictSet key (workingEntry key value now) cm.short_term).length = 10 := by
          omega
        rw [h10e]
    · rw [if_neg hgt]
      omega

/-- Witness for C10: with max_short_term 1 the very first insert is
kept without any eviction. -/
theorem C10_witness :
    (set_working cmMax1 "a" (.vint 0) 0).short_term
      = dictSet "a" (workingEntry "a" (.vint 0) 0) cmMax1.short_term :=
  C10_eviction_count_and_cap.2.1 cmMax1 "a" (.vint 0) 0 (by decide) (by decide)

end Pulse
